import Mathlib

/-!
Shallow embedding of `pymltools/tf_utils/tf_optimizer.py` and
`pymltools/tf_utils/tf_model_fn.py`.

Tensors are modelled as lists of rationals (vectors) or lists of rows
(matrices); machine floating point is idealised as exact arithmetic in `ℚ`,
with the square root kept as an abstract function parameter `sqrt : ℚ → ℚ`
because every claim under study is insensitive to its numeric value (both the
custom optimizer and the canonical one call the same primitive).
-/

set_option autoImplicit false

/-! ### Sparse tensor primitives (`state_ops` / `array_ops` of the framework)

`scatter_add ref indices updates` adds `updates[k]` into `ref` at position
`indices[k]`, sequentially, so duplicate indices accumulate — the semantics of
`state_ops.scatter_add` and of the `scatter_add` callback that
`_apply_sparse_shared` receives.  Out-of-range indices leave `ref` unchanged
(`List.set` is a no-op out of range).  `gather xs indices` is
`array_ops.gather`: the list of values of `xs` at the given indices. -/

def scatter_add : List ℚ → List ℕ → List ℚ → List ℚ
  | xs, i :: is, u :: us => scatter_add (xs.set i (xs.getD i 0 + u)) is us
  | xs, _, _ => xs

def gather (xs : List ℚ) (indices : List ℕ) : List ℚ :=
  indices.map (fun i => xs.getD i 0)

/-- The hyper-parameter tensors read at the top of `_apply_sparse_shared`
(after the `math_ops.cast` to the variable dtype): `self._lr_t`,
`self._beta1_t`, `self._beta2_t`, `self._epsilon_t` and the two beta power
accumulators returned by `self._get_beta_accumulators()`. -/
structure AdamHypers where
  lr_t : ℚ
  beta1_t : ℚ
  beta2_t : ℚ
  epsilon_t : ℚ
  beta1_power : ℚ
  beta2_power : ℚ
deriving DecidableEq

/-- The mutable state touched by `_apply_sparse_shared`: the optimized
variable `var` and its two slot variables `m` and `v`
(`self.get_slot(var, "m")`, `self.get_slot(var, "v")`). -/
structure SparseState where
  var : List ℚ
  m : List ℚ
  v : List ℚ
deriving DecidableEq

/-- `MaskedAdamOptimizer._apply_sparse_shared`
(`src/pymltools/tf_utils/tf_optimizer.py`, lines 16–42), with the
`state_ops.assign` + control-dependency + `scatter_add` pairs collapsed to
their sequential meaning: the scatter is applied to the already decayed
accumulator.  The returned `control_flow_ops.group` makes the new values of
`var`, `m` and `v` the observable effect, which is the returned state. -/
def MaskedAdamOptimizer.apply_sparse_shared (sqrt : ℚ → ℚ) (h : AdamHypers)
    (s : SparseState) (grad : List ℚ) (indices : List ℕ) : SparseState :=
  let lr := h.lr_t * sqrt (1 - h.beta2_power) / (1 - h.beta1_power)
  let m_scaled_g_values := grad.map (fun g => g * (1 - h.beta1_t))
  let m_t := scatter_add (s.m.map (fun x => x * h.beta1_t)) indices m_scaled_g_values
  let v_scaled_g_values := grad.map (fun g => (g * g) * (1 - h.beta2_t))
  let v_t := scatter_add (s.v.map (fun x => x * h.beta2_t)) indices v_scaled_g_values
  let gather_m_t := gather m_t indices
  let gather_v_t := gather v_t indices
  let gather_v_sqrt := gather_v_t.map sqrt
  let var_update :=
    scatter_add s.var indices
      (List.zipWith (fun gm gvs => -lr * gm / (gvs + h.epsilon_t)) gather_m_t gather_v_sqrt)
  { var := var_update, m := m_t, v := v_t }

/-- The framework's canonical `adam.AdamOptimizer._apply_sparse_shared`
(the method the subclass overrides; it is framework code, reproduced here from
the TensorFlow implementation the spec designates as the reference).  The
accumulator updates are the same decay-then-scatter pairs; the variable update
is a dense `state_ops.assign_sub(var, lr * m_t / (v_sqrt + epsilon_t))` over
the whole variable. -/
def AdamOptimizer.apply_sparse_shared (sqrt : ℚ → ℚ) (h : AdamHypers)
    (s : SparseState) (grad : List ℚ) (indices : List ℕ) : SparseState :=
  let lr := h.lr_t * sqrt (1 - h.beta2_power) / (1 - h.beta1_power)
  let m_scaled_g_values := grad.map (fun g => g * (1 - h.beta1_t))
  let m_t := scatter_add (s.m.map (fun x => x * h.beta1_t)) indices m_scaled_g_values
  let v_scaled_g_values := grad.map (fun g => (g * g) * (1 - h.beta2_t))
  let v_t := scatter_add (s.v.map (fun x => x * h.beta2_t)) indices v_scaled_g_values
  let v_sqrt := v_t.map sqrt
  let var_update :=
    List.zipWith (fun x y => x - y) s.var
      (List.zipWith (fun mt vs => lr * mt / (vs + h.epsilon_t)) m_t v_sqrt)
  { var := var_update, m := m_t, v := v_t }

/-! ### The optimizer as a record of operations (class-level view)

`adam.AdamOptimizer` bundles many operations besides the sparse path: dense
updates, slot creation, hyper-parameter handling.  Those live in the
framework, not in this repository, so they are abstract fields here; the
subclass `MaskedAdamOptimizer` is the record update that replaces exactly the
`_apply_sparse_shared` field — the Python class body contains that single
method and nothing else. -/

structure OptimizerOps (Dense Slots Hyper : Type) where
  apply_dense : Dense
  create_slots : Slots
  hyper_params : Hyper
  apply_sparse_shared : (ℚ → ℚ) → AdamHypers → SparseState → List ℚ → List ℕ → SparseState

def adamOptimizerOps (Dense Slots Hyper : Type) (d : Dense) (sl : Slots) (hp : Hyper) :
    OptimizerOps Dense Slots Hyper :=
  { apply_dense := d, create_slots := sl, hyper_params := hp,
    apply_sparse_shared := AdamOptimizer.apply_sparse_shared }

def maskedAdamOptimizerOps (Dense Slots Hyper : Type) (d : Dense) (sl : Slots) (hp : Hyper) :
    OptimizerOps Dense Slots Hyper :=
  { adamOptimizerOps Dense Slots Hyper d sl hp with
    apply_sparse_shared := MaskedAdamOptimizer.apply_sparse_shared }

/-! ### The op graph built by `MaskedAdamOptimizer._apply_sparse_shared`

For the temporal claim we model the graph nodes the method creates and the
ordering edges the source imposes on them: a control dependency from each
decay `state_ops.assign` to the `scatter_add` into the same accumulator
(`with ops.control_dependencies([m_t])`, lines 30 and 36), and data
dependencies from each scatter output to the `array_ops.gather` that reads it
(lines 38–39) and from the gathers to the variable update built from them
(line 41).  A schedule is any list of ops; it respects the graph when every
edge source occupies an earlier position than its target. -/

inductive AdamOp
  | mAssign
  | mScatter
  | vAssign
  | vScatter
  | gatherM
  | gatherV
  | varUpdate
deriving DecidableEq

def opPos (l : List AdamOp) (a : AdamOp) : ℕ :=
  match l with
  | [] => 0
  | b :: bs => if b = a then 0 else opPos bs a + 1

def adamOpDeps : List (AdamOp × AdamOp) :=
  [(.mAssign, .mScatter), (.vAssign, .vScatter),
   (.mScatter, .gatherM), (.vScatter, .gatherV),
   (.gatherM, .varUpdate), (.gatherV, .varUpdate)]

def RespectsDeps (l : List AdamOp) : Prop :=
  ∀ e ∈ adamOpDeps, opPos l e.1 < opPos l e.2

instance (l : List AdamOp) : Decidable (RespectsDeps l) := by
  unfold RespectsDeps; infer_instance

/-! ### Embedding of `tf_model_fn.py`

Matrices (`Tensor`) are lists of rows; a feature dictionary maps string keys
to tensors.  Framework primitives whose numeric content no claim depends on
(`batch_hard_triplet_loss` — which lives in `triplet_loss.py`, outside the
given sources — `tf.cast` to int64, `tf.losses.sparse_softmax_cross_entropy`,
`tf.argmax`, `tf.nn.softmax`, the network itself and the learning-rate
callback) are abstract parameters; the claims quantify over them.
`tf.nn.l2_normalize` and the `embedding_mean_norm` summary are given concrete
definitions because one claim is about which axis is normalized and what the
summary reads. -/

abbrev Tensor := List (List ℚ)

abbrev Features := String → Tensor

inductive ModeKeys
  | TRAIN
  | EVAL
  | PREDICT
deriving DecidableEq

/-- Modelled from the spec: the `OptimizerType` enum is imported from
`pymltools/tf_utils/project_demo.py`, which is not among the given sources.
The spec and the call sites use exactly the values `sgd` and `adam`, with
`adam` the default of both factory functions. -/
inductive OptimizerType
  | adam
  | sgd
deriving DecidableEq

structure Params where
  margin : ℚ
deriving DecidableEq

/-- The optimizer object built inside the TRAIN branch:
`tf.train.GradientDescentOptimizer(learning_rate=...)` or
`tf.train.AdamOptimizer(learning_rate=...)`. -/
inductive TFOptimizer
  | GradientDescentOptimizer (learning_rate : ℚ)
  | AdamOptimizer (learning_rate : ℚ)
deriving DecidableEq

/-- `optimizer.minimize(loss, ...)`: the train op records which optimizer
produced it and the loss it minimizes. -/
structure TrainOp where
  optimizer : TFOptimizer
  loss : ℚ
deriving DecidableEq

/-- The metric ops put into `eval_metric_ops`: `tf.metrics.mean(...)` in the
triplet model function and `tf.metrics.accuracy(labels, predictions)` in the
softmax one. -/
inductive MetricOp
  | mean (value : ℚ)
  | accuracy (labels : List ℚ) (predicted : List ℤ)
deriving DecidableEq

/-- A value stored in the predictions dictionary: a rational tensor, or the
integer vector produced by `tf.argmax(logits, 1)`. -/
inductive PredValue
  | tensor (t : Tensor)
  | intVec (v : List ℤ)
deriving DecidableEq

/-- `tf.estimator.EstimatorSpec`: every field the two model functions ever
pass; a constructor site leaves the remaining fields at their default
`None`. -/
structure EstimatorSpec where
  mode : ModeKeys
  predictions : Option (List (String × PredValue)) := none
  loss : Option ℚ := none
  train_op : Option TrainOp := none
  eval_metric_ops : Option (List (String × MetricOp)) := none
deriving DecidableEq

/-- Row-wise sum of squares, the inside of a per-sample l2 norm. -/
def rowSumSq (row : List ℚ) : ℚ := (row.map (fun x => x * x)).sum

/-- Column-wise sum of squares over the batch. -/
def colSumSq (t : Tensor) (j : ℕ) : ℚ :=
  (t.map (fun row => row.getD j 0 * row.getD j 0)).sum

/-- `tf.reduce_mean(tf.norm(embeddings, axis=1))`: the mean over the batch of
the per-row l2 norms (`tf_model_fn.py`, line 39). -/
def reduceMeanNorm (sqrt : ℚ → ℚ) (t : Tensor) : ℚ :=
  (t.map (fun row => sqrt (rowSumSq row))).sum / (t.length : ℚ)

/-- `tf.nn.l2_normalize(x, axis=0)`: each entry is divided by
`sqrt(max(sum of squares of its column, 1e-12))` — the column statistics come
from the whole batch. -/
def l2NormalizeAxis0 (sqrt : ℚ → ℚ) (t : Tensor) : Tensor :=
  t.map (fun row => row.mapIdx (fun j x => x / sqrt (max (colSumSq t j) (1 / 10 ^ 12))))

/-- `tf.nn.l2_normalize(x, axis=1)`: each entry is divided by
`sqrt(max(sum of squares of its own row, 1e-12))` — per-sample
normalization.  Defined only to be contrasted with the axis-0 version the
source actually calls. -/
def l2NormalizeAxis1 (sqrt : ℚ → ℚ) (t : Tensor) : Tensor :=
  t.map (fun row => row.map (fun x => x / sqrt (max (rowSumSq row) (1 / 10 ^ 12))))

/-- A model function returns an `EstimatorSpec` together with the scalar
summaries it recorded, or fails (`none`) where the Python would raise — e.g.
`tf.cast(None, ...)` on absent labels outside PREDICT mode. -/
abbrev ModelFnResult := Option (EstimatorSpec × List (String × ℚ))

/-- The closure returned by `tf_triplet_loss_model_fn`
(`src/pymltools/tf_utils/tf_model_fn.py`, lines 31–83), translated statement
by statement.  The factory arguments come first, then the estimator's
`(features, labels, mode, params)`. -/
def tf_triplet_loss_model_fn.model_func
    (sqrt : ℚ → ℚ)
    (network : String → Features → Params → Bool → Tensor × Tensor)
    (scope_name features_embedding_key features_filename_key : String)
    (get_learning_rate_func : Unit → ℚ)
    (optimizer_type : OptimizerType)
    (use_l2_normalize : Bool)
    (batch_hard_triplet_loss : List ℤ → Tensor → ℚ → Bool → ℚ)
    (cast_int64 : List ℚ → List ℤ)
    (features : Features) (labels : Option (List ℚ)) (mode : ModeKeys)
    (params : Params) : ModelFnResult :=
  let ep := match mode with
    | .TRAIN => network scope_name features params true
    | _ => network scope_name features params false
  let embeddings := ep.1
  let embedding_mean_norm := reduceMeanNorm sqrt embeddings
  let summaries := [("embedding_mean_norm", embedding_mean_norm)]
  let embeddings := if use_l2_normalize then l2NormalizeAxis0 sqrt embeddings else embeddings
  match mode with
  | .PREDICT =>
      some ({ mode := mode,
              predictions := some
                [(features_embedding_key, .tensor embeddings),
                 (features_filename_key, .tensor (features features_filename_key))] },
            summaries)
  | _ =>
      match labels with
      | none => none
      | some ls =>
          let labels64 := cast_int64 ls
          let loss := batch_hard_triplet_loss labels64 embeddings params.margin false
          let eval_metric_ops := [("embedding_mean_norm", MetricOp.mean embedding_mean_norm)]
          match mode with
          | .EVAL =>
              some ({ mode := mode, loss := some loss,
                      eval_metric_ops := some eval_metric_ops }, summaries)
          | _ =>
              let summaries := summaries ++ [("loss", loss)]
              let optimizer := match optimizer_type with
                | .sgd => TFOptimizer.GradientDescentOptimizer (get_learning_rate_func ())
                | _ => TFOptimizer.AdamOptimizer (get_learning_rate_func ())
              some ({ mode := mode, loss := some loss,
                      train_op := some { optimizer := optimizer, loss := loss } }, summaries)

/-- The closure returned by `tf_softmax_model_fn`
(`src/pymltools/tf_utils/tf_model_fn.py`, lines 104–143), translated
statement by statement. -/
def tf_softmax_model_fn.model_func
    (network : String → Features → Params → Bool → Tensor × Tensor)
    (scope_name features_filename_key : String)
    (get_learning_rate_func : Unit → ℚ)
    (optimizer_type : OptimizerType)
    (argmax1 : Tensor → List ℤ)
    (softmax_of : Tensor → Tensor)
    (sparse_softmax_cross_entropy : List ℚ → Tensor → ℚ)
    (features : Features) (labels : Option (List ℚ)) (mode : ModeKeys)
    (params : Params) : ModelFnResult :=
  let ep := match mode with
    | .TRAIN => network scope_name features params true
    | _ => network scope_name features params false
  let logits := ep.1
  let predicted_classes := argmax1 logits
  match mode with
  | .PREDICT =>
      some ({ mode := mode,
              predictions := some
                [("class", .intVec predicted_classes),
                 ("prob", .tensor (softmax_of logits)),
                 ("filename", .tensor (features features_filename_key))] }, [])
  | _ =>
      match labels with
      | none => none
      | some ls =>
          let loss := sparse_softmax_cross_entropy ls logits
          match mode with
          | .TRAIN =>
              let summaries := [("loss", loss)]
              let optimizer := match optimizer_type with
                | .sgd => TFOptimizer.GradientDescentOptimizer (get_learning_rate_func ())
                | _ => TFOptimizer.AdamOptimizer (get_learning_rate_func ())
              some ({ mode := mode, loss := some loss,
                      train_op := some { optimizer := optimizer, loss := loss } }, summaries)
          | _ =>
              some ({ mode := mode, loss := some loss,
                      eval_metric_ops := some
                        [("accuracy", MetricOp.accuracy ls predicted_classes)] }, [])

/-! ### Projections on model-function results -/

def resultSpec (r : ModelFnResult) : Option EstimatorSpec := r.map Prod.fst

def resultSummaries (r : ModelFnResult) : Option (List (String × ℚ)) := r.map Prod.snd

def specLoss (r : ModelFnResult) : Option ℚ := (resultSpec r).bind EstimatorSpec.loss

def specTrainOp (r : ModelFnResult) : Option TrainOp :=
  (resultSpec r).bind EstimatorSpec.train_op

def specPredictions (r : ModelFnResult) : Option (List (String × PredValue)) :=
  (resultSpec r).bind EstimatorSpec.predictions

def specMetrics (r : ModelFnResult) : Option (List (String × MetricOp)) :=
  (resultSpec r).bind EstimatorSpec.eval_metric_ops

def predictionKeys (r : ModelFnResult) : Option (List String) :=
  (specPredictions r).map (fun ps => ps.map Prod.fst)

/-! ### Conclusion predicates for the optimizer claims -/

/-- Adam's moment-accumulator mathematics for the masked sparse update: at a
listed index, `m` becomes `beta1 * m + (1 - beta1) * g` and `v` becomes
`beta2 * v + (1 - beta2) * g²`; elsewhere only the decay applies; and the
variable moves at a listed index by
`-lr_t * sqrt(1 - beta2_power) / (1 - beta1_power) * m_new / (sqrt v_new + epsilon)`. -/
def MaskedAdamMomentSpec (sqrt : ℚ → ℚ) (h : AdamHypers) (s : SparseState)
    (grad : List ℚ) (indices : List ℕ) : Prop :=
  let res := MaskedAdamOptimizer.apply_sparse_shared sqrt h s grad indices
  let lr := h.lr_t * sqrt (1 - h.beta2_power) / (1 - h.beta1_power)
  (∀ k, k < indices.length →
      res.m.getD (indices.getD k 0) 0 =
        h.beta1_t * s.m.getD (indices.getD k 0) 0 + (1 - h.beta1_t) * grad.getD k 0) ∧
  (∀ j, j < s.m.length → j ∉ indices →
      res.m.getD j 0 = h.beta1_t * s.m.getD j 0) ∧
  (∀ k, k < indices.length →
      res.v.getD (indices.getD k 0) 0 =
        h.beta2_t * s.v.getD (indices.getD k 0) 0 +
          (1 - h.beta2_t) * (grad.getD k 0 * grad.getD k 0)) ∧
  (∀ j, j < s.v.length → j ∉ indices →
      res.v.getD j 0 = h.beta2_t * s.v.getD j 0) ∧
  (∀ k, k < indices.length →
      res.var.getD (indices.getD k 0) 0 =
        s.var.getD (indices.getD k 0) 0 -
          lr * res.m.getD (indices.getD k 0) 0 /
            (sqrt (res.v.getD (indices.getD k 0) 0) + h.epsilon_t))

/-- How the masked and the canonical sparse update relate on the variable:
they agree at every listed index, while at an unlisted in-range index the
masked update leaves the variable untouched and the canonical one still
subtracts the dense Adam step there. -/
def MaskedVsAdamVarSpec (sqrt : ℚ → ℚ) (h : AdamHypers) (s : SparseState)
    (grad : List ℚ) (indices : List ℕ) : Prop :=
  let mres := MaskedAdamOptimizer.apply_sparse_shared sqrt h s grad indices
  let ares := AdamOptimizer.apply_sparse_shared sqrt h s grad indices
  let lr := h.lr_t * sqrt (1 - h.beta2_power) / (1 - h.beta1_power)
  (∀ k, k < indices.length →
      mres.var.getD (indices.getD k 0) 0 = ares.var.getD (indices.getD k 0) 0) ∧
  (∀ j, j < s.var.length → j ∉ indices →
      mres.var.getD j 0 = s.var.getD j 0 ∧
      ares.var.getD j 0 =
        s.var.getD j 0 - lr * mres.m.getD j 0 / (sqrt (mres.v.getD j 0) + h.epsilon_t))

/-! ### Helper lemmas about the list primitives -/

theorem getD_set_ne (xs : List ℚ) (i j : ℕ) (a : ℚ) (hne : i ≠ j) :
    (xs.set i a).getD j 0 = xs.getD j 0 := by
  induction xs generalizing i j with
  | nil => simp
  | cons x xs ih =>
    cases i with
    | zero =>
      cases j with
      | zero => exact absurd rfl hne
      | succ j => simp
    | succ i =>
      cases j with
      | zero => simp
      | succ j =>
        simpa using ih i j (fun e => hne (by rw [e]))

theorem getD_set_self (xs : List ℚ) (i : ℕ) (a : ℚ) (hlt : i < xs.length) :
    (xs.set i a).getD i 0 = a := by
  induction xs generalizing i with
  | nil => simp at hlt
  | cons x xs ih =>
    cases i with
    | zero => simp
    | succ i => simpa using ih i (Nat.lt_of_succ_lt_succ hlt)

theorem length_scatter_add (is : List ℕ) (xs : List ℚ) (us : List ℚ) :
    (scatter_add xs is us).length = xs.length := by
  induction is generalizing xs us with
  | nil => simp [scatter_add]
  | cons i is ih =>
    cases us with
    | nil => simp [scatter_add]
    | cons u us => simp [scatter_add, ih, List.length_set]

theorem getD_scatter_add_not_mem (is : List ℕ) (xs : List ℚ) (us : List ℚ)
    (j : ℕ) (hj : j ∉ is) : (scatter_add xs is us).getD j 0 = xs.getD j 0 := by
  induction is generalizing xs us with
  | nil => simp [scatter_add]
  | cons i is ih =>
    cases us with
    | nil => simp [scatter_add]
    | cons u us =>
      have hij : i ≠ j := fun e => hj (e ▸ List.mem_cons_self i is)
      have hjs : j ∉ is := fun hmem => hj (List.mem_cons_of_mem i hmem)
      rw [show scatter_add xs (i :: is) (u :: us) =
            scatter_add (xs.set i (xs.getD i 0 + u)) is us from rfl,
          ih _ _ hjs, getD_set_ne _ _ _ _ hij]

theorem getD_mem_of_lt (is : List ℕ) (k : ℕ) (hk : k < is.length) :
    is.getD k 0 ∈ is := by
  induction is generalizing k with
  | nil => simp at hk
  | cons i is ih =>
    cases k with
    | zero => simp
    | succ k =>
      simpa using Or.inr (ih k (Nat.lt_of_succ_lt_succ hk))

theorem getD_scatter_add_nodup (is : List ℕ) (xs : List ℚ) (us : List ℚ)
    (hnd : is.Nodup) (hlen : is.length = us.length) (k : ℕ) (hk : k < is.length)
    (hb : is.getD k 0 < xs.length) :
    (scatter_add xs is us).getD (is.getD k 0) 0 =
      xs.getD (is.getD k 0) 0 + us.getD k 0 := by
  induction is generalizing xs us k with
  | nil => simp at hk
  | cons i is ih =>
    cases us with
    | nil => simp at hlen
    | cons u us =>
      have hni : i ∉ is := (List.nodup_cons.mp hnd).1
      have hnd2 : is.Nodup := (List.nodup_cons.mp hnd).2
      cases k with
      | zero =>
        have hb0 : i < xs.length := by simpa using hb
        rw [show scatter_add xs (i :: is) (u :: us) =
              scatter_add (xs.set i (xs.getD i 0 + u)) is us from rfl]
        simp only [List.getD_cons_zero]
        rw [getD_scatter_add_not_mem is _ us i hni, getD_set_self _ _ _ hb0]
      | succ k =>
        have hk2 : k < is.length := Nat.lt_of_succ_lt_succ hk
        have hmem : is.getD k 0 ∈ is := getD_mem_of_lt is k hk2
        have hne : i ≠ is.getD k 0 := fun e => hni (e ▸ hmem)
        have hb2 : is.getD k 0 < (xs.set i (xs.getD i 0 + u)).length := by
          simpa [List.length_set] using (by simpa using hb : is.getD k 0 < xs.length)
        rw [show scatter_add xs (i :: is) (u :: us) =
              scatter_add (xs.set i (xs.getD i 0 + u)) is us from rfl]
        simp only [List.getD_cons_succ]
        rw [ih _ _ hnd2 (by simpa using hlen) k hk2 hb2, getD_set_ne _ _ _ _ hne]

theorem getD_map_of_lt {α β : Type} (f : α → β) (xs : List α) (k : ℕ)
    (d : β) (e : α) (hk : k < xs.length) :
    (xs.map f).getD k d = f (xs.getD k e) := by
  induction xs generalizing k with
  | nil => simp at hk
  | cons x xs ih =>
    cases k with
    | zero => simp
    | succ k => simpa using ih k (Nat.lt_of_succ_lt_succ hk)

theorem getD_zipWith_of_lt {α β γ : Type} (f : α → β → γ) (xs : List α)
    (ys : List β) (k : ℕ) (d : γ) (ea : α) (eb : β)
    (hx : k < xs.length) (hy : k < ys.length) :
    (List.zipWith f xs ys).getD k d = f (xs.getD k ea) (ys.getD k eb) := by
  induction xs generalizing ys k with
  | nil => simp at hx
  | cons x xs ih =>
    cases ys with
    | nil => simp at hy
    | cons y ys =>
      cases k with
      | zero => simp
      | succ k =>
        simpa using ih ys k (Nat.lt_of_succ_lt_succ hx) (Nat.lt_of_succ_lt_succ hy)

theorem getD_gather_of_lt (xs : List ℚ) (is : List ℕ) (k : ℕ) (hk : k < is.length) :
    (gather xs is).getD k 0 = xs.getD (is.getD k 0) 0 := by
  unfold gather
  exact getD_map_of_lt _ is k 0 0 hk

theorem length_gather (xs : List ℚ) (is : List ℕ) : (gather xs is).length = is.length := by
  simp [gather]

/-! ### Characterizations of the two sparse updates -/

theorem masked_m_eq (sqrt : ℚ → ℚ) (h : AdamHypers) (s : SparseState)
    (grad : List ℚ) (indices : List ℕ) :
    (MaskedAdamOptimizer.apply_sparse_shared sqrt h s grad indices).m =
      scatter_add (s.m.map (fun x => x * h.beta1_t)) indices
        (grad.map (fun g => g * (1 - h.beta1_t))) := rfl

theorem masked_v_eq (sqrt : ℚ → ℚ) (h : AdamHypers) (s : SparseState)
    (grad : List ℚ) (indices : List ℕ) :
    (MaskedAdamOptimizer.apply_sparse_shared sqrt h s grad indices).v =
      scatter_add (s.v.map (fun x => x * h.beta2_t)) indices
        (grad.map (fun g => (g * g) * (1 - h.beta2_t))) := rfl

theorem masked_var_eq (sqrt : ℚ → ℚ) (h : AdamHypers) (s : SparseState)
    (grad : List ℚ) (indices : List ℕ) :
    (MaskedAdamOptimizer.apply_sparse_shared sqrt h s grad indices).var =
      scatter_add s.var indices
        (List.zipWith
          (fun gm gvs =>
            -(h.lr_t * sqrt (1 - h.beta2_power) / (1 - h.beta1_power)) * gm /
              (gvs + h.epsilon_t))
          (gather (scatter_add (s.m.map (fun x => x * h.beta1_t)) indices
                     (grad.map (fun g => g * (1 - h.beta1_t)))) indices)
          ((gather (scatter_add (s.v.map (fun x => x * h.beta2_t)) indices
                      (grad.map (fun g => (g * g) * (1 - h.beta2_t)))) indices).map sqrt)) :=
  rfl

theorem adam_m_eq_masked (sqrt : ℚ → ℚ) (h : AdamHypers) (s : SparseState)
    (grad : List ℚ) (indices : List ℕ) :
    (AdamOptimizer.apply_sparse_shared sqrt h s grad indices).m =
      (MaskedAdamOptimizer.apply_sparse_shared sqrt h s grad indices).m := rfl

theorem adam_v_eq_masked (sqrt : ℚ → ℚ) (h : AdamHypers) (s : SparseState)
    (grad : List ℚ) (indices : List ℕ) :
    (AdamOptimizer.apply_sparse_shared sqrt h s grad indices).v =
      (MaskedAdamOptimizer.apply_sparse_shared sqrt h s grad indices).v := rfl

theorem adam_var_eq (sqrt : ℚ → ℚ) (h : AdamHypers) (s : SparseState)
    (grad : List ℚ) (indices : List ℕ) :
    (AdamOptimizer.apply_sparse_shared sqrt h s grad indices).var =
      List.zipWith (fun x y => x - y) s.var
        (List.zipWith
          (fun mt vs =>
            h.lr_t * sqrt (1 - h.beta2_power) / (1 - h.beta1_power) * mt /
              (vs + h.epsilon_t))
          (scatter_add (s.m.map (fun x => x * h.beta1_t)) indices
            (grad.map (fun g => g * (1 - h.beta1_t))))
          ((scatter_add (s.v.map (fun x => x * h.beta2_t)) indices
             (grad.map (fun g => (g * g) * (1 - h.beta2_t)))).map sqrt)) :=
  rfl

/-- Claim C2: `MaskedAdamOptimizer._apply_sparse_shared` reproduces Adam's
moment-accumulator mathematics in exact arithmetic: at each listed index `i`,
`m` becomes `beta1 * m[i] + (1 - beta1) * g_i` and `v` becomes
`beta2 * v[i] + (1 - beta2) * g_i²` (decay only at unlisted indices), and the
variable at `i` moves by
`-lr_t * sqrt(1 - beta2_power) / (1 - beta1_power) * m_new[i] / (sqrt v_new[i] + epsilon)`,
for every duplicate-free, in-range index list matching the gradient in
length. -/
theorem claim_C2_moment_accumulator_math (sqrt : ℚ → ℚ) (h : AdamHypers)
    (s : SparseState) (grad : List ℚ) (indices : List ℕ)
    (hnd : indices.Nodup) (hlen : indices.length = grad.length)
    (hb : ∀ i ∈ indices, i < s.var.length)
    (hm : s.m.length = s.var.length) (hv : s.v.length = s.var.length) :
    MaskedAdamMomentSpec sqrt h s grad indices := by
  simp only [MaskedAdamMomentSpec]
  refine ⟨?_, ?_, ?_, ?_, ?_⟩
  · intro k hk
    have hik : indices.getD k 0 < s.m.length := by
      rw [hm]; exact hb _ (getD_mem_of_lt indices k hk)
    have hbase : indices.getD k 0 < (s.m.map (fun x => x * h.beta1_t)).length := by
      simpa [List.length_map] using hik
    have e1 := getD_scatter_add_nodup indices (s.m.map (fun x => x * h.beta1_t))
      (grad.map (fun g => g * (1 - h.beta1_t))) hnd
      (by simpa [List.length_map] using hlen) k hk hbase
    have e2 := getD_map_of_lt (fun x => x * h.beta1_t) s.m (indices.getD k 0) 0 0 hik
    have e3 := getD_map_of_lt (fun g => g * (1 - h.beta1_t)) grad k 0 0 (hlen ▸ hk)
    rw [masked_m_eq]
    simp only [e1, e2, e3]
    ring
  · intro j hj hnot
    have e2 := getD_map_of_lt (fun x => x * h.beta1_t) s.m j 0 0 hj
    rw [masked_m_eq, getD_scatter_add_not_mem _ _ _ _ hnot]
    simp only [e2]
    ring
  · intro k hk
    have hik : indices.getD k 0 < s.v.length := by
      rw [hv]; exact hb _ (getD_mem_of_lt indices k hk)
    have hbase : indices.getD k 0 < (s.v.map (fun x => x * h.beta2_t)).length := by
      simpa [List.length_map] using hik
    have e1 := getD_scatter_add_nodup indices (s.v.map (fun x => x * h.beta2_t))
      (grad.map (fun g => (g * g) * (1 - h.beta2_t))) hnd
      (by simpa [List.length_map] using hlen) k hk hbase
    have e2 := getD_map_of_lt (fun x => x * h.beta2_t) s.v (indices.getD k 0) 0 0 hik
    have e3 := getD_map_of_lt (fun g => (g * g) * (1 - h.beta2_t)) grad k 0 0 (hlen ▸ hk)
    rw [masked_v_eq]
    simp only [e1, e2, e3]
    ring
  · intro j hj hnot
    have e2 := getD_map_of_lt (fun x => x * h.beta2_t) s.v j 0 0 hj
    rw [masked_v_eq, getD_scatter_add_not_mem _ _ _ _ hnot]
    simp only [e2]
    ring
  · intro k hk
    have hi : indices.getD k 0 < s.var.length := hb _ (getD_mem_of_lt indices k hk)
    rw [masked_var_eq, masked_m_eq, masked_v_eq]
    set M := scatter_add (s.m.map (fun x => x * h.beta1_t)) indices
      (grad.map (fun g => g * (1 - h.beta1_t))) with hM
    set V := scatter_add (s.v.map (fun x => x * h.beta2_t)) indices
      (grad.map (fun g => (g * g) * (1 - h.beta2_t))) with hV
    have hlenupd : indices.length =
        (List.zipWith
          (fun gm gvs =>
            -(h.lr_t * sqrt (1 - h.beta2_power) / (1 - h.beta1_power)) * gm /
              (gvs + h.epsilon_t))
          (gather M indices) ((gather V indices).map sqrt)).length := by
      simp [List.length_zipWith, length_gather, List.length_map]
    have e1 := getD_scatter_add_nodup indices s.var
      (List.zipWith
        (fun gm gvs =>
          -(h.lr_t * sqrt (1 - h.beta2_power) / (1 - h.beta1_power)) * gm /
            (gvs + h.epsilon_t))
        (gather M indices) ((gather V indices).map sqrt)) hnd hlenupd k hk hi
    have e2 := getD_zipWith_of_lt
      (fun gm gvs =>
        -(h.lr_t * sqrt (1 - h.beta2_power) / (1 - h.beta1_power)) * gm /
          (gvs + h.epsilon_t))
      (gather M indices) ((gather V indices).map sqrt) k 0 0 0
      (by rw [length_gather]; exact hk)
      (by rw [List.length_map, length_gather]; exact hk)
    have e3 := getD_gather_of_lt M indices k hk
    have e4 := getD_map_of_lt sqrt (gather V indices) k 0 0
      (by rw [length_gather]; exact hk)
    have e5 := getD_gather_of_lt V indices k hk
    simp only [e1, e2, e3, e4, e5]
    ring

/-- Claim C2 witness: the moment-accumulator specification holds at a concrete
state, gradient and index list, the hypotheses checked by `decide`. -/
theorem claim_C2_witness :
    (([0] : List ℕ).Nodup ∧ ([0] : List ℕ).length = [(1 : ℚ)].length ∧
      (∀ i ∈ ([0] : List ℕ), i < 2)) ∧
    MaskedAdamMomentSpec id ⟨1, 1/2, 0, 1, 0, 0⟩ ⟨[0, 0], [0, 1], [0, 0]⟩ [1] [0] :=
  ⟨⟨by decide, by decide, by decide⟩,
   claim_C2_moment_accumulator_math id ⟨1, 1/2, 0, 1, 0, 0⟩ ⟨[0, 0], [0, 1], [0, 0]⟩
     [1] [0] (by decide) (by decide) (by decide) (by decide) (by decide)⟩

/-- Claim C3: the masked sparse update changes the optimized variable only at
the listed indices: any position not in `indices` keeps its value, and the
variable keeps its length. -/
theorem claim_C3_frame_effect (sqrt : ℚ → ℚ) (h : AdamHypers) (s : SparseState)
    (grad : List ℚ) (indices : List ℕ) (j : ℕ) (hj : j ∉ indices) :
    (MaskedAdamOptimizer.apply_sparse_shared sqrt h s grad indices).var.getD j 0 =
        s.var.getD j 0 ∧
    (MaskedAdamOptimizer.apply_sparse_shared sqrt h s grad indices).var.length =
        s.var.length := by
  constructor
  · rw [masked_var_eq]
    exact getD_scatter_add_not_mem _ _ _ _ hj
  · rw [masked_var_eq]
    exact length_scatter_add _ _ _

/-- Claim C3 witness: at index 1, which is not among the updated indices, the
variable keeps its value through a concrete masked update. -/
theorem claim_C3_witness :
    (1 : ℕ) ∉ ([0] : List ℕ) ∧
    ((MaskedAdamOptimizer.apply_sparse_shared id ⟨1, 1/2, 0, 1, 0, 0⟩
        ⟨[5, 7], [0, 1], [0, 0]⟩ [1] [0]).var.getD 1 0 =
      (SparseState.mk [5, 7] [0, 1] [0, 0]).var.getD 1 0 ∧
     (MaskedAdamOptimizer.apply_sparse_shared id ⟨1, 1/2, 0, 1, 0, 0⟩
        ⟨[5, 7], [0, 1], [0, 0]⟩ [1] [0]).var.length =
      (SparseState.mk [5, 7] [0, 1] [0, 0]).var.length) :=
  ⟨by decide,
   claim_C3_frame_effect id ⟨1, 1/2, 0, 1, 0, 0⟩ ⟨[5, 7], [0, 1], [0, 0]⟩ [1] [0] 1
     (by decide)⟩

/-- Claim C1 counterexample: the masked and the canonical sparse update do
not compute the same result on every variable, gradient and index set.  With
`var = [0,0]`, `m = [0,1]`, `v = [0,0]`, gradient `[1]` at index list `[0]`
and hyper-parameters `lr_t = 1`, `beta1 = 1/2`, `beta2 = 0`, `epsilon = 1`,
both beta powers `0` (square root taken as the identity), the canonical dense
`assign_sub` also moves `var[1]`, which the masked update leaves at `0`. -/
theorem claim_C1_counterexample :
    (MaskedAdamOptimizer.apply_sparse_shared id ⟨1, 1/2, 0, 1, 0, 0⟩
        ⟨[0, 0], [0, 1], [0, 0]⟩ [1] [0]).var.getD 1 0 ≠
      (AdamOptimizer.apply_sparse_shared id ⟨1, 1/2, 0, 1, 0, 0⟩
        ⟨[0, 0], [0, 1], [0, 0]⟩ [1] [0]).var.getD 1 0 := by
  norm_num [MaskedAdamOptimizer.apply_sparse_shared, AdamOptimizer.apply_sparse_shared,
    scatter_add, gather, List.set, List.getD]

/-- Claim C1, amended: the masked update computes exactly the same moment
accumulators `m` and `v` as the canonical `adam.AdamOptimizer`
`_apply_sparse_shared` (the accumulation formula is not reordered at all —
it is identical), and the behavioural difference is confined to the variable
update: for every duplicate-free in-range index list the two methods agree on
the variable at every listed index, while at unlisted positions the masked
update leaves the variable unchanged where the canonical dense `assign_sub`
still subtracts the full Adam step. -/
theorem claim_C1_masked_vs_canonical_adam (sqrt : ℚ → ℚ) (h : AdamHypers)
    (s : SparseState) (grad : List ℚ) (indices : List ℕ)
    (hnd : indices.Nodup) (_hlen : indices.length = grad.length)
    (hb : ∀ i ∈ indices, i < s.var.length)
    (hm : s.m.length = s.var.length) (hv : s.v.length = s.var.length) :
    (MaskedAdamOptimizer.apply_sparse_shared sqrt h s grad indices).m =
        (AdamOptimizer.apply_sparse_shared sqrt h s grad indices).m ∧
    (MaskedAdamOptimizer.apply_sparse_shared sqrt h s grad indices).v =
        (AdamOptimizer.apply_sparse_shared sqrt h s grad indices).v ∧
    MaskedVsAdamVarSpec sqrt h s grad indices := by
  refine ⟨rfl, rfl, ?_⟩
  simp only [MaskedVsAdamVarSpec]
  rw [masked_var_eq, adam_var_eq, masked_m_eq, masked_v_eq]
  set M := scatter_add (s.m.map (fun x => x * h.beta1_t)) indices
    (grad.map (fun g => g * (1 - h.beta1_t))) with hM
  set V := scatter_add (s.v.map (fun x => x * h.beta2_t)) indices
    (grad.map (fun g => (g * g) * (1 - h.beta2_t))) with hV
  have hMlen : M.length = s.var.length := by
    rw [hM, length_scatter_add, List.length_map, hm]
  have hVlen : V.length = s.var.length := by
    rw [hV, length_scatter_add, List.length_map, hv]
  constructor
  · intro k hk
    have hi : indices.getD k 0 < s.var.length := hb _ (getD_mem_of_lt indices k hk)
    have hlenupd : indices.length =
        (List.zipWith
          (fun gm gvs =>
            -(h.lr_t * sqrt (1 - h.beta2_power) / (1 - h.beta1_power)) * gm /
              (gvs + h.epsilon_t))
          (gather M indices) ((gather V indices).map sqrt)).length := by
      simp [List.length_zipWith, length_gather, List.length_map]
    have e1 := getD_scatter_add_nodup indices s.var
      (List.zipWith
        (fun gm gvs =>
          -(h.lr_t * sqrt (1 - h.beta2_power) / (1 - h.beta1_power)) * gm /
            (gvs + h.epsilon_t))
        (gather M indices) ((gather V indices).map sqrt)) hnd hlenupd k hk hi
    have e2 := getD_zipWith_of_lt
      (fun gm gvs =>
        -(h.lr_t * sqrt (1 - h.beta2_power) / (1 - h.beta1_power)) * gm /
          (gvs + h.epsilon_t))
      (gather M indices) ((gather V indices).map sqrt) k 0 0 0
      (by rw [length_gather]; exact hk)
      (by rw [List.length_map, length_gather]; exact hk)
    have e3 := getD_gather_of_lt M indices k hk
    have e4 := getD_map_of_lt sqrt (gather V indices) k 0 0
      (by rw [length_gather]; exact hk)
    have e5 := getD_gather_of_lt V indices k hk
    have f1 := getD_zipWith_of_lt (fun x y => x - y) s.var
      (List.zipWith
        (fun mt vs =>
          h.lr_t * sqrt (1 - h.beta2_power) / (1 - h.beta1_power) * mt /
            (vs + h.epsilon_t)) M (V.map sqrt))
      (indices.getD k 0) 0 0 0 hi
      (by rw [List.length_zipWith, hMlen, List.length_map, hVlen, Nat.min_self]; exact hi)
    have f2 := getD_zipWith_of_lt
      (fun mt vs =>
        h.lr_t * sqrt (1 - h.beta2_power) / (1 - h.beta1_power) * mt /
          (vs + h.epsilon_t)) M (V.map sqrt) (indices.getD k 0) 0 0 0
      (by rw [hMlen]; exact hi) (by rw [List.length_map, hVlen]; exact hi)
    have f3 := getD_map_of_lt sqrt V (indices.getD k 0) 0 0 (by rw [hVlen]; exact hi)
    simp only [e1, e2, e3, e4, e5, f1, f2, f3]
    ring
  · intro j hj hnot
    refine ⟨getD_scatter_add_not_mem _ _ _ _ hnot, ?_⟩
    have f1 := getD_zipWith_of_lt (fun x y => x - y) s.var
      (List.zipWith
        (fun mt vs =>
          h.lr_t * sqrt (1 - h.beta2_power) / (1 - h.beta1_power) * mt /
            (vs + h.epsilon_t)) M (V.map sqrt)) j 0 0 0 hj
      (by rw [List.length_zipWith, hMlen, List.length_map, hVlen, Nat.min_self]; exact hj)
    have f2 := getD_zipWith_of_lt
      (fun mt vs =>
        h.lr_t * sqrt (1 - h.beta2_power) / (1 - h.beta1_power) * mt /
          (vs + h.epsilon_t)) M (V.map sqrt) j 0 0 0
      (by rw [hMlen]; exact hj) (by rw [List.length_map, hVlen]; exact hj)
    have f3 := getD_map_of_lt sqrt V j 0 0 (by rw [hVlen]; exact hj)
    simp only [f1, f2, f3]

/-- Claim C1 witness: the amended relation between the masked and the
canonical update holds at a concrete state, gradient and index list, the
hypotheses checked by `decide`. -/
theorem claim_C1_witness :
    (([0] : List ℕ).Nodup ∧ (∀ i ∈ ([0] : List ℕ), i < 2)) ∧
    ((MaskedAdamOptimizer.apply_sparse_shared id ⟨1, 1/2, 0, 1, 0, 0⟩
        ⟨[0, 0], [0, 1], [0, 0]⟩ [1] [0]).m =
      (AdamOptimizer.apply_sparse_shared id ⟨1, 1/2, 0, 1, 0, 0⟩
        ⟨[0, 0], [0, 1], [0, 0]⟩ [1] [0]).m ∧
     (MaskedAdamOptimizer.apply_sparse_shared id ⟨1, 1/2, 0, 1, 0, 0⟩
        ⟨[0, 0], [0, 1], [0, 0]⟩ [1] [0]).v =
      (AdamOptimizer.apply_sparse_shared id ⟨1, 1/2, 0, 1, 0, 0⟩
        ⟨[0, 0], [0, 1], [0, 0]⟩ [1] [0]).v ∧
     MaskedVsAdamVarSpec id ⟨1, 1/2, 0, 1, 0, 0⟩ ⟨[0, 0], [0, 1], [0, 0]⟩ [1] [0]) :=
  ⟨⟨by decide, by decide⟩,
   claim_C1_masked_vs_canonical_adam id ⟨1, 1/2, 0, 1, 0, 0⟩ ⟨[0, 0], [0, 1], [0, 0]⟩
     [1] [0] (by decide) (by decide) (by decide) (by decide) (by decide)⟩

/-- Claim C4: viewing the optimizer as its record of operations,
`MaskedAdamOptimizer` is `adam.AdamOptimizer` with exactly the
`_apply_sparse_shared` field replaced; dense updates, slot creation and
hyper-parameter handling are untouched fields of the inherited record. -/
theorem claim_C4_override_only_sparse_path (Dense Slots Hyper : Type)
    (d : Dense) (sl : Slots) (hp : Hyper) :
    (maskedAdamOptimizerOps Dense Slots Hyper d sl hp).apply_dense =
        (adamOptimizerOps Dense Slots Hyper d sl hp).apply_dense ∧
    (maskedAdamOptimizerOps Dense Slots Hyper d sl hp).create_slots =
        (adamOptimizerOps Dense Slots Hyper d sl hp).create_slots ∧
    (maskedAdamOptimizerOps Dense Slots Hyper d sl hp).hyper_params =
        (adamOptimizerOps Dense Slots Hyper d sl hp).hyper_params ∧
    (maskedAdamOptimizerOps Dense Slots Hyper d sl hp).apply_sparse_shared =
        MaskedAdamOptimizer.apply_sparse_shared ∧
    (adamOptimizerOps Dense Slots Hyper d sl hp).apply_sparse_shared =
        AdamOptimizer.apply_sparse_shared :=
  ⟨rfl, rfl, rfl, rfl, rfl⟩

/-- Claim C8: in every schedule of the ops built by
`MaskedAdamOptimizer._apply_sparse_shared` that respects the control and data
dependencies of the source, each decay assign precedes the scatter-add into
the same accumulator, and both scatter-adds precede the variable update (which
therefore reads the post-scatter accumulator values through the gathers). -/
theorem claim_C8_decay_before_scatter (l : List AdamOp) (hres : RespectsDeps l) :
    opPos l .mAssign < opPos l .mScatter ∧
    opPos l .vAssign < opPos l .vScatter ∧
    opPos l .mScatter < opPos l .varUpdate ∧
    opPos l .vScatter < opPos l .varUpdate := by
  refine ⟨hres (.mAssign, .mScatter) (by decide),
          hres (.vAssign, .vScatter) (by decide), ?_, ?_⟩
  · exact Nat.lt_trans (hres (.mScatter, .gatherM) (by decide))
      (hres (.gatherM, .varUpdate) (by decide))
  · exact Nat.lt_trans (hres (.vScatter, .gatherV) (by decide))
      (hres (.gatherV, .varUpdate) (by decide))

/-- Claim C8 witness: the schedule in source order respects the dependency
graph, and the required orderings hold in it. -/
theorem claim_C8_witness :
    RespectsDeps [.mAssign, .mScatter, .vAssign, .vScatter, .gatherM, .gatherV, .varUpdate] ∧
    (opPos [.mAssign, .mScatter, .vAssign, .vScatter, .gatherM, .gatherV, .varUpdate] .mAssign <
        opPos [.mAssign, .mScatter, .vAssign, .vScatter, .gatherM, .gatherV, .varUpdate] .mScatter ∧
     opPos [.mAssign, .mScatter, .vAssign, .vScatter, .gatherM, .gatherV, .varUpdate] .vAssign <
        opPos [.mAssign, .mScatter, .vAssign, .vScatter, .gatherM, .gatherV, .varUpdate] .vScatter ∧
     opPos [.mAssign, .mScatter, .vAssign, .vScatter, .gatherM, .gatherV, .varUpdate] .mScatter <
        opPos [.mAssign, .mScatter, .vAssign, .vScatter, .gatherM, .gatherV, .varUpdate] .varUpdate ∧
     opPos [.mAssign, .mScatter, .vAssign, .vScatter, .gatherM, .gatherV, .varUpdate] .vScatter <
        opPos [.mAssign, .mScatter, .vAssign, .vScatter, .gatherM, .gatherV, .varUpdate] .varUpdate) :=
  ⟨by decide, claim_C8_decay_before_scatter _ (by decide)⟩

/-! ### Claims about the model-function builders -/

theorem l2_axis0_ne_axis1_sample :
    ((l2NormalizeAxis0 id [[1, 0], [1, 1]]).getD 0 []).getD 0 0 ≠
      ((l2NormalizeAxis1 id [[1, 0], [1, 1]]).getD 0 []).getD 0 0 := by
  have h0 : max (colSumSq [[1, 0], [1, 1]] 0) (1 / 10 ^ 12 : ℚ) = 2 := by
    rw [max_eq_left] <;> norm_num [colSumSq]
  have h1 : max (rowSumSq [1, 0]) (1 / 10 ^ 12 : ℚ) = 1 := by
    rw [max_eq_left] <;> norm_num [rowSumSq]
  simp only [l2NormalizeAxis0, l2NormalizeAxis1, List.map_cons, List.mapIdx_cons,
    List.getD_cons_zero, h0, h1, id_eq]
  norm_num

/-- Claim C5: both model functions branch exhaustively on the execution mode:
in PREDICT the spec carries only predictions (loss, train op and metric ops
are all absent); in EVAL it carries the loss and the metric ops and no train
op; in TRAIN it carries the loss and a train op. -/
theorem claim_C5_mode_branching (sqrt : ℚ → ℚ)
    (network : String → Features → Params → Bool → Tensor × Tensor)
    (scope_name ek fk : String) (glr : Unit → ℚ) (ot : OptimizerType) (ul2 : Bool)
    (bhtl : List ℤ → Tensor → ℚ → Bool → ℚ) (cast64 : List ℚ → List ℤ)
    (am : Tensor → List ℤ) (sm : Tensor → Tensor) (ssce : List ℚ → Tensor → ℚ)
    (features : Features) (labels : Option (List ℚ)) (ls : List ℚ) (params : Params) :
    ((specPredictions (tf_triplet_loss_model_fn.model_func sqrt network scope_name ek fk
        glr ot ul2 bhtl cast64 features labels .PREDICT params)).isSome = true ∧
     specLoss (tf_triplet_loss_model_fn.model_func sqrt network scope_name ek fk
        glr ot ul2 bhtl cast64 features labels .PREDICT params) = none ∧
     specTrainOp (tf_triplet_loss_model_fn.model_func sqrt network scope_name ek fk
        glr ot ul2 bhtl cast64 features labels .PREDICT params) = none ∧
     specMetrics (tf_triplet_loss_model_fn.model_func sqrt network scope_name ek fk
        glr ot ul2 bhtl cast64 features labels .PREDICT params) = none) ∧
    ((specLoss (tf_triplet_loss_model_fn.model_func sqrt network scope_name ek fk
        glr ot ul2 bhtl cast64 features (some ls) .EVAL params)).isSome = true ∧
     (specMetrics (tf_triplet_loss_model_fn.model_func sqrt network scope_name ek fk
        glr ot ul2 bhtl cast64 features (some ls) .EVAL params)).isSome = true ∧
     specTrainOp (tf_triplet_loss_model_fn.model_func sqrt network scope_name ek fk
        glr ot ul2 bhtl cast64 features (some ls) .EVAL params) = none) ∧
    ((specLoss (tf_triplet_loss_model_fn.model_func sqrt network scope_name ek fk
        glr ot ul2 bhtl cast64 features (some ls) .TRAIN params)).isSome = true ∧
     (specTrainOp (tf_triplet_loss_model_fn.model_func sqrt network scope_name ek fk
        glr ot ul2 bhtl cast64 features (some ls) .TRAIN params)).isSome = true) ∧
    ((specPredictions (tf_softmax_model_fn.model_func network scope_name fk glr ot
        am sm ssce features labels .PREDICT params)).isSome = true ∧
     specLoss (tf_softmax_model_fn.model_func network scope_name fk glr ot
        am sm ssce features labels .PREDICT params) = none ∧
     specTrainOp (tf_softmax_model_fn.model_func network scope_name fk glr ot
        am sm ssce features labels .PREDICT params) = none ∧
     specMetrics (tf_softmax_model_fn.model_func network scope_name fk glr ot
        am sm ssce features labels .PREDICT params) = none) ∧
    ((specLoss (tf_softmax_model_fn.model_func network scope_name fk glr ot
        am sm ssce features (some ls) .EVAL params)).isSome = true ∧
     (specMetrics (tf_softmax_model_fn.model_func network scope_name fk glr ot
        am sm ssce features (some ls) .EVAL params)).isSome = true ∧
     specTrainOp (tf_softmax_model_fn.model_func network scope_name fk glr ot
        am sm ssce features (some ls) .EVAL params) = none) ∧
    ((specLoss (tf_softmax_model_fn.model_func network scope_name fk glr ot
        am sm ssce features (some ls) .TRAIN params)).isSome = true ∧
     (specTrainOp (tf_softmax_model_fn.model_func network scope_name fk glr ot
        am sm ssce features (some ls) .TRAIN params)).isSome = true) :=
  ⟨⟨rfl, rfl, rfl, rfl⟩, ⟨rfl, rfl, rfl⟩, ⟨rfl, rfl⟩,
   ⟨rfl, rfl, rfl, rfl⟩, ⟨rfl, rfl, rfl⟩, ⟨rfl, rfl⟩⟩

/-- Claim C6: in both factory functions the optimizer inside the train op is
selected solely by the optimizer-type flag — gradient descent exactly when it
is `sgd`, Adam for every other value — and is constructed with the learning
rate returned by the learning-rate callback. -/
theorem claim_C6_optimizer_selection (sqrt : ℚ → ℚ)
    (network : String → Features → Params → Bool → Tensor × Tensor)
    (scope_name ek fk : String) (glr : Unit → ℚ) (ot : OptimizerType) (ul2 : Bool)
    (bhtl : List ℤ → Tensor → ℚ → Bool → ℚ) (cast64 : List ℚ → List ℤ)
    (am : Tensor → List ℤ) (sm : Tensor → Tensor) (ssce : List ℚ → Tensor → ℚ)
    (features : Features) (ls : List ℚ) (params : Params) :
    (specTrainOp (tf_triplet_loss_model_fn.model_func sqrt network scope_name ek fk
        glr ot ul2 bhtl cast64 features (some ls) .TRAIN params)).map TrainOp.optimizer =
      some (if ot = OptimizerType.sgd then TFOptimizer.GradientDescentOptimizer (glr ())
            else TFOptimizer.AdamOptimizer (glr ())) ∧
    (specTrainOp (tf_softmax_model_fn.model_func network scope_name fk glr ot
        am sm ssce features (some ls) .TRAIN params)).map TrainOp.optimizer =
      some (if ot = OptimizerType.sgd then TFOptimizer.GradientDescentOptimizer (glr ())
            else TFOptimizer.AdamOptimizer (glr ())) := by
  cases ot <;> exact ⟨rfl, rfl⟩

/-- Claim C7: in every non-PREDICT mode the triplet model function's loss is
`batch_hard_triplet_loss` of the labels cast to int64 and the embeddings, with
margin `params.margin` and `squared = False`, and the softmax model function's
loss is the sparse softmax cross-entropy of the labels against the logits. -/
theorem claim_C7_loss_assembly (sqrt : ℚ → ℚ)
    (network : String → Features → Params → Bool → Tensor × Tensor)
    (scope_name ek fk : String) (glr : Unit → ℚ) (ot : OptimizerType) (ul2 : Bool)
    (bhtl : List ℤ → Tensor → ℚ → Bool → ℚ) (cast64 : List ℚ → List ℤ)
    (am : Tensor → List ℤ) (sm : Tensor → Tensor) (ssce : List ℚ → Tensor → ℚ)
    (features : Features) (ls : List ℚ) (params : Params) :
    specLoss (tf_triplet_loss_model_fn.model_func sqrt network scope_name ek fk
        glr ot ul2 bhtl cast64 features (some ls) .TRAIN params) =
      some (bhtl (cast64 ls)
        (if ul2 then l2NormalizeAxis0 sqrt (network scope_name features params true).1
         else (network scope_name features params true).1) params.margin false) ∧
    specLoss (tf_triplet_loss_model_fn.model_func sqrt network scope_name ek fk
        glr ot ul2 bhtl cast64 features (some ls) .EVAL params) =
      some (bhtl (cast64 ls)
        (if ul2 then l2NormalizeAxis0 sqrt (network scope_name features params false).1
         else (network scope_name features params false).1) params.margin false) ∧
    specLoss (tf_softmax_model_fn.model_func network scope_name fk glr ot
        am sm ssce features (some ls) .TRAIN params) =
      some (ssce ls (network scope_name features params true).1) ∧
    specLoss (tf_softmax_model_fn.model_func network scope_name fk glr ot
        am sm ssce features (some ls) .EVAL params) =
      some (ssce ls (network scope_name features params false).1) :=
  ⟨rfl, rfl, rfl, rfl⟩

/-- Claim C9: with `use_l2_normalize` set, the embeddings are normalized by
`tf.nn.l2_normalize` along axis 0 (each dimension by column statistics of the
whole batch — a different operation from the per-sample axis-1 normalization,
as the final disequality shows on a concrete batch), and the normalization
happens after the `embedding_mean_norm` summary is computed from the raw
embeddings but before the embeddings reach the PREDICT predictions or the
triplet loss. -/
theorem claim_C9_l2_normalize_axis0 (sqrt : ℚ → ℚ)
    (network : String → Features → Params → Bool → Tensor × Tensor)
    (scope_name ek fk : String) (glr : Unit → ℚ) (ot : OptimizerType)
    (bhtl : List ℤ → Tensor → ℚ → Bool → ℚ) (cast64 : List ℚ → List ℤ)
    (features : Features) (labels : Option (List ℚ)) (ls : List ℚ) (params : Params) :
    resultSummaries (tf_triplet_loss_model_fn.model_func sqrt network scope_name ek fk
        glr ot true bhtl cast64 features labels .PREDICT params) =
      some [("embedding_mean_norm",
             reduceMeanNorm sqrt (network scope_name features params false).1)] ∧
    specPredictions (tf_triplet_loss_model_fn.model_func sqrt network scope_name ek fk
        glr ot true bhtl cast64 features labels .PREDICT params) =
      some [(ek, .tensor (l2NormalizeAxis0 sqrt (network scope_name features params false).1)),
            (fk, .tensor (features fk))] ∧
    specLoss (tf_triplet_loss_model_fn.model_func sqrt network scope_name ek fk
        glr ot true bhtl cast64 features (some ls) .TRAIN params) =
      some (bhtl (cast64 ls)
        (l2NormalizeAxis0 sqrt (network scope_name features params true).1)
        params.margin false) ∧
    specLoss (tf_triplet_loss_model_fn.model_func sqrt network scope_name ek fk
        glr ot true bhtl cast64 features (some ls) .EVAL params) =
      some (bhtl (cast64 ls)
        (l2NormalizeAxis0 sqrt (network scope_name features params false).1)
        params.margin false) ∧
    resultSummaries (tf_triplet_loss_model_fn.model_func sqrt network scope_name ek fk
        glr ot true bhtl cast64 features (some ls) .TRAIN params) =
      some [("embedding_mean_norm",
             reduceMeanNorm sqrt (network scope_name features params true).1),
            ("loss",
             bhtl (cast64 ls)
               (l2NormalizeAxis0 sqrt (network scope_name features params true).1)
               params.margin false)] ∧
    ((l2NormalizeAxis0 id [[1, 0], [1, 1]]).getD 0 []).getD 0 0 ≠
      ((l2NormalizeAxis1 id [[1, 0], [1, 1]]).getD 0 []).getD 0 0 :=
  ⟨rfl, rfl, rfl, rfl, rfl, l2_axis0_ne_axis1_sample⟩

/-- Claim C10: in PREDICT mode neither model function reads the labels — the
result is the same for any labels value, and with labels `None` it still
succeeds — and the predictions dictionary carries exactly the embedding and
filename keys for the triplet builder, and exactly `class`, `prob` and
`filename` for the softmax builder. -/
theorem claim_C10_predict_labels_and_keys (sqrt : ℚ → ℚ)
    (network : String → Features → Params → Bool → Tensor × Tensor)
    (scope_name ek fk : String) (glr : Unit → ℚ) (ot : OptimizerType) (ul2 : Bool)
    (bhtl : List ℤ → Tensor → ℚ → Bool → ℚ) (cast64 : List ℚ → List ℤ)
    (am : Tensor → List ℤ) (sm : Tensor → Tensor) (ssce : List ℚ → Tensor → ℚ)
    (features : Features) (labels1 labels2 : Option (List ℚ)) (params : Params) :
    tf_triplet_loss_model_fn.model_func sqrt network scope_name ek fk
        glr ot ul2 bhtl cast64 features labels1 .PREDICT params =
      tf_triplet_loss_model_fn.model_func sqrt network scope_name ek fk
        glr ot ul2 bhtl cast64 features labels2 .PREDICT params ∧
    (resultSpec (tf_triplet_loss_model_fn.model_func sqrt network scope_name ek fk
        glr ot ul2 bhtl cast64 features none .PREDICT params)).isSome = true ∧
    predictionKeys (tf_triplet_loss_model_fn.model_func sqrt network scope_name ek fk
        glr ot ul2 bhtl cast64 features none .PREDICT params) = some [ek, fk] ∧
    tf_softmax_model_fn.model_func network scope_name fk glr ot
        am sm ssce features labels1 .PREDICT params =
      tf_softmax_model_fn.model_func network scope_name fk glr ot
        am sm ssce features labels2 .PREDICT params ∧
    (resultSpec (tf_softmax_model_fn.model_func network scope_name fk glr ot
        am sm ssce features none .PREDICT params)).isSome = true ∧
    predictionKeys (tf_softmax_model_fn.model_func network scope_name fk glr ot
        am sm ssce features none .PREDICT params) =
      some ["class", "prob", "filename"] :=
  ⟨rfl, rfl, rfl, rfl, rfl, rfl⟩
